import Mathlib

/-!
Verification of the sprinkler-automation controller
(`sprinkler_controller.py` and `api_server.py`).

The Python code is shallowly embedded: times are pairs of naturals,
`datetime.strptime(s, "%H:%M")` and the pydantic `pattern` check are
modelled character-by-character after CPython's `_strptime` regular
expression and the declared pattern, controller state is an explicit
record, and the threaded parts (scheduled dispatch, manual run, zone
removal racing a runner) are modelled as small labelled transition
systems whose atomic steps are the individual statements of the code.
-/

/-! ## Time values and HH:MM parsing -/

/-- An hour/minute pair, the embedding of `datetime.time` as used here. -/
structure STime where
  hour : Nat
  minute : Nat
deriving DecidableEq, Repr

def digitVal (c : Char) : Nat := c.toNat - 48

/-- Minute field of CPython strptime `%M` (`[0-5]\d|\d`) followed by end of
input: exactly two chars `[0-5]\d`, or exactly one digit. -/
def parseMinuteEof : List Char → Option Nat
  | [c] => if c.isDigit then some (digitVal c) else none
  | [c1, c2] =>
      if ('0' ≤ c1 && c1 ≤ '5') && c2.isDigit then
        some (digitVal c1 * 10 + digitVal c2)
      else none
  | _ => none

/-- A literal `:` followed by the `%M` field and end of input. -/
def colonMinute : List Char → Option Nat
  | ':' :: rest => parseMinuteEof rest
  | _ => none

/-- The two-digit alternatives `2[0-3]|[0-1]\d` of CPython's `%H`. -/
def hourTwoDigit (c1 c2 : Char) : Bool :=
  (c1 = '2' && '0' ≤ c2 && c2 ≤ '3') || ((c1 = '0' || c1 = '1') && c2.isDigit)

/-- Embedding of `datetime.strptime(s, "%H:%M")` on a character list.
CPython compiles `%H` to `(2[0-3]|[0-1]\d|\d)` and `%M` to `([0-5]\d|\d)`,
matches the whole string, and rejects leftover input. -/
def strptimeHMList : List Char → Option STime
  | c1 :: c2 :: rest =>
      if hourTwoDigit c1 c2 then
        match colonMinute rest with
        | some m => some ⟨digitVal c1 * 10 + digitVal c2, m⟩
        | none =>
            if c1.isDigit then
              match colonMinute (c2 :: rest) with
              | some m => some ⟨digitVal c1, m⟩
              | none => none
            else none
      else if c1.isDigit then
        match colonMinute (c2 :: rest) with
        | some m => some ⟨digitVal c1, m⟩
        | none => none
      else none
  | _ => none

/-- Embedding of `datetime.strptime(s, "%H:%M")` on a string. -/
def strptimeHM (s : String) : Option STime := strptimeHMList s.toList

/-- The minute part `[0-5][0-9]` of the pydantic pattern (exactly two chars,
end of input). -/
def patternMinute : List Char → Bool
  | [c1, c2] => ('0' ≤ c1 && c1 ≤ '5') && c2.isDigit
  | _ => false

/-- Embedding of the pydantic `start_time` check
`pattern="^([0-1]?[0-9]|2[0-3]):[0-5][0-9]$"` (api_server.py line 43). -/
def patternHMList : List Char → Bool
  | c1 :: c2 :: rest =>
      ((c1 = '0' || c1 = '1') && c2.isDigit &&
        (match rest with
         | ':' :: r => patternMinute r
         | _ => false)) ||
      (c1.isDigit && c2 = ':' && patternMinute rest) ||
      (c1 = '2' && ('0' ≤ c2 && c2 ≤ '3') &&
        (match rest with
         | ':' :: r => patternMinute r
         | _ => false))
  | _ => false

def patternHM (s : String) : Bool := patternHMList s.toList

/-! ## Schedule and zone data model -/

/-- Embedding of `SprinklerSchedule` after construction: `start_time` is the
parsed time object. -/
structure SprinklerSchedule where
  days : List Int
  start_time : STime
  duration_minutes : Int
  enabled : Bool
deriving DecidableEq, Repr

/-- Embedding of `Zone`: name, BCM pin, schedule, runtime `active` flag. -/
structure Zone where
  name : String
  gpio_pin : Int
  schedule : SprinklerSchedule
  active : Bool
deriving DecidableEq, Repr

/-- Embedding of `SprinklerSchedule.__init__`: the only check performed is
`datetime.strptime(start_time, "%H:%M")`; `days` and `duration_minutes` are
stored unchecked. `none` models the ValueError escaping the constructor. -/
def mkSprinklerSchedule (days : List Int) (start_time : String)
    (duration_minutes : Int) (enabled : Bool) : Option SprinklerSchedule :=
  (strptimeHM start_time).map fun t =>
    { days := days, start_time := t, duration_minutes := duration_minutes,
      enabled := enabled }

/-- Embedding of `SprinklerSchedule.should_run_today` at an explicit
weekday (`datetime.now().weekday() in self.days`). -/
def should_run_today (s : SprinklerSchedule) (weekday : Int) : Bool :=
  s.days.contains weekday

/-- Embedding of `SprinklerSchedule.is_start_time` at an explicit current
time: compares total minutes of the day for equality. -/
def is_start_time (s : SprinklerSchedule) (now : STime) : Bool :=
  now.hour * 60 + now.minute == s.start_time.hour * 60 + s.start_time.minute

/-- The trigger match test as combined in `check_and_run` (line 327):
`zone.schedule.should_run_today() and zone.schedule.is_start_time()`. -/
def schedule_matches (s : SprinklerSchedule) (weekday : Int) (now : STime) :
    Bool :=
  should_run_today s weekday && is_start_time s now

/-! ## C2: trigger match test -/

/-- C2: for every schedule and instant, the trigger match test is true iff
the weekday is in `days` and the hour:minute equals `start_time` exactly at
minute granularity, and it is false one minute before and one minute after
`start_time`. -/
theorem schedule_matches_iff_exact_minute (s : SprinklerSchedule)
    (weekday : Int) (now : STime)
    (hn : now.minute < 60) (hs : s.start_time.minute < 60) :
    (schedule_matches s weekday now = true ↔
      weekday ∈ s.days ∧ now.hour = s.start_time.hour ∧
        now.minute = s.start_time.minute) ∧
    (∀ t : STime, t.hour * 60 + t.minute + 1 =
        s.start_time.hour * 60 + s.start_time.minute →
      schedule_matches s weekday t = false) ∧
    (∀ t : STime, t.hour * 60 + t.minute =
        s.start_time.hour * 60 + s.start_time.minute + 1 →
      schedule_matches s weekday t = false) := by
  refine ⟨?_, ?_, ?_⟩
  · unfold schedule_matches should_run_today is_start_time
    rw [Bool.and_eq_true, beq_iff_eq]
    constructor
    · rintro ⟨hmem, heq⟩
      exact ⟨by simpa using hmem, by omega, by omega⟩
    · rintro ⟨hmem, h1, h2⟩
      exact ⟨by simpa using hmem, by omega⟩
  · intro t ht
    unfold schedule_matches is_start_time
    have : (t.hour * 60 + t.minute ==
        s.start_time.hour * 60 + s.start_time.minute) = false := by
      rw [beq_eq_false_iff_ne]
      omega
    rw [this, Bool.and_false]
  · intro t ht
    unfold schedule_matches is_start_time
    have : (t.hour * 60 + t.minute ==
        s.start_time.hour * 60 + s.start_time.minute) = false := by
      rw [beq_eq_false_iff_ne]
      omega
    rw [this, Bool.and_false]

/-- Witness for C2 at the spec's own scenario: days `[0,2,4]`, start 06:00,
current instant Monday 06:00; one minute before is 05:59 and one minute
after is 06:01. -/
theorem schedule_matches_iff_exact_minute_witness :
    (0 : Nat) < 60 ∧ (0 : Nat) < 60 ∧
    (schedule_matches ⟨[0, 2, 4], ⟨6, 0⟩, 20, true⟩ 0 ⟨6, 0⟩ = true ↔
      (0 : Int) ∈ [(0 : Int), 2, 4] ∧ (6 : Nat) = 6 ∧ (0 : Nat) = 0) ∧
    (∀ t : STime, t.hour * 60 + t.minute + 1 = 6 * 60 + 0 →
      schedule_matches ⟨[0, 2, 4], ⟨6, 0⟩, 20, true⟩ 0 t = false) ∧
    (∀ t : STime, t.hour * 60 + t.minute = 6 * 60 + 0 + 1 →
      schedule_matches ⟨[0, 2, 4], ⟨6, 0⟩, 20, true⟩ 0 t = false) :=
  ⟨by decide, by decide,
    schedule_matches_iff_exact_minute ⟨[0, 2, 4], ⟨6, 0⟩, 20, true⟩ 0 ⟨6, 0⟩
      (by decide) (by decide)⟩

/-! ## C3: schedule validation -/

/-- Embedding of the pydantic `ScheduleModel` field constraints
(api_server.py lines 40-45): `days` has `min_items=1, max_items=7` but no
bound on the day values themselves, `start_time` must match the HH:MM
pattern, `duration_minutes` must satisfy `gt=0, le=180`. -/
def scheduleModelOK (days : List Int) (start_time : String)
    (duration_minutes : Int) : Bool :=
  decide (1 ≤ days.length) && decide (days.length ≤ 7) &&
  patternHM start_time &&
  decide (0 < duration_minutes) && decide (duration_minutes ≤ 180)

/-- Schedule construction through the API: pydantic validates the request
body (`ScheduleModel`), then `add_zone` runs `SprinklerSchedule.__init__`,
which re-parses the time string with `strptime`. `none` models a rejected
request. -/
def apiMkSchedule (days : List Int) (start_time : String)
    (duration_minutes : Int) (enabled : Bool) : Option SprinklerSchedule :=
  if scheduleModelOK days start_time duration_minutes then
    mkSprinklerSchedule days start_time duration_minutes enabled
  else none

/-- Modelled from the spec's words for comparison (claim C3): construction
should fail exactly when the time string is unparsable, the duration is
outside (0, 180], or `days` is empty or contains a value outside {0..6}. -/
def claimedInvalidC3 (days : List Int) (start_time : String)
    (duration_minutes : Int) : Prop :=
  strptimeHM start_time = none ∨ duration_minutes ≤ 0 ∨
    180 < duration_minutes ∨ days = [] ∨ ∃ d ∈ days, d < 0 ∨ 6 < d

instance (days : List Int) (st : String) (dur : Int) :
    Decidable (claimedInvalidC3 days st dur) := by
  unfold claimedInvalidC3; infer_instance

/-- If the minute part matches the pydantic pattern `[0-5][0-9]`, then the
strptime minute field parses it. -/
theorem parseMinuteEof_isSome_of_patternMinute (r : List Char)
    (h : patternMinute r = true) : (parseMinuteEof r).isSome = true := by
  match r with
  | [] => simp [patternMinute] at h
  | [c] => simp [patternMinute] at h
  | [c1, c2] =>
      simp only [patternMinute, Bool.and_eq_true] at h
      simp [parseMinuteEof, h.1, h.2]
  | c1 :: c2 :: c3 :: t => simp [patternMinute] at h

/-- Every string accepted by the pydantic pattern is parsed by strptime. -/
theorem strptimeHMList_isSome_of_pattern (l : List Char)
    (h : patternHMList l = true) : (strptimeHMList l).isSome = true := by
  match l with
  | [] => simp [patternHMList] at h
  | [c] => simp [patternHMList] at h
  | c1 :: c2 :: rest =>
    simp only [patternHMList, Bool.or_eq_true, Bool.and_eq_true] at h
    rcases h with (⟨⟨h01, hd⟩, hm⟩ | ⟨⟨hd1, hcol⟩, hm⟩) | ⟨⟨h2, hr⟩, hm⟩
    · split at hm
      · rename_i r
        have hcond : hourTwoDigit c1 c2 = true := by
          simp only [hourTwoDigit, Bool.or_eq_true, Bool.and_eq_true]
          right
          exact ⟨by simpa using h01, hd⟩
        have hmin := parseMinuteEof_isSome_of_patternMinute r hm
        simp only [strptimeHMList, hcond, if_true, colonMinute]
        cases hp : parseMinuteEof r with
        | none => rw [hp] at hmin; simp at hmin
        | some m => simp
      · simp at hm
    · have hc2 : c2 = ':' := by simpa using hcol
      subst hc2
      have hcond : hourTwoDigit c1 ':' = false := by
        simp only [hourTwoDigit]
        have hx1 : (decide ((':' : Char) ≤ '3')) = false := by decide
        have hx2 : (':' : Char).isDigit = false := by decide
        rw [hx1, hx2]
        simp
      have hmin := parseMinuteEof_isSome_of_patternMinute rest hm
      simp only [strptimeHMList, hcond, Bool.false_eq_true, if_false, hd1,
        if_true, colonMinute]
      cases hp : parseMinuteEof rest with
      | none => rw [hp] at hmin; simp at hmin
      | some m => simp
    · split at hm
      · rename_i r
        have hcond : hourTwoDigit c1 c2 = true := by
          simp only [hourTwoDigit, Bool.or_eq_true, Bool.and_eq_true]
          left
          exact ⟨⟨by simpa using h2, hr.1⟩, hr.2⟩
        have hmin := parseMinuteEof_isSome_of_patternMinute r hm
        simp only [strptimeHMList, hcond, if_true, colonMinute]
        cases hp : parseMinuteEof r with
        | none => rw [hp] at hmin; simp at hmin
        | some m => simp
      · simp at hm

/-- C3 counterexample: `days = [7]` with a valid time and duration is
invalid according to the claim (7 is outside {0..6}), yet the API accepts
the request and a `SprinklerSchedule` instance is produced: pydantic bounds
only the number of entries of `days`, never their values, and
`SprinklerSchedule.__init__` does not look at `days` at all. -/
theorem schedule_validation_counterexample :
    claimedInvalidC3 [7] "06:00" 30 ∧
      apiMkSchedule [7] "06:00" 30 true =
        some { days := [7], start_time := ⟨6, 0⟩, duration_minutes := 30,
               enabled := true } := by
  constructor
  · decide
  · decide

/-- C3 amended: construction through the API fails iff `days` is empty or
has more than 7 entries, or the time string fails the pydantic HH:MM
pattern, or the duration is outside (0, 180]. Day values outside {0..6}
are not rejected. -/
theorem apiMkSchedule_eq_none_iff (days : List Int) (st : String)
    (dur : Int) (en : Bool) :
    apiMkSchedule days st dur en = none ↔
      days = [] ∨ 7 < days.length ∨ patternHM st = false ∨
        dur ≤ 0 ∨ 180 < dur := by
  unfold apiMkSchedule
  split
  · rename_i hok
    unfold scheduleModelOK at hok
    simp only [Bool.and_eq_true, decide_eq_true_eq] at hok
    obtain ⟨⟨⟨⟨hlen1, hlen7⟩, hpat⟩, hdur1⟩, hdur2⟩ := hok
    have hsome : (strptimeHM st).isSome = true :=
      strptimeHMList_isSome_of_pattern st.toList hpat
    unfold mkSprinklerSchedule
    cases ho : strptimeHM st with
    | none => rw [ho] at hsome; simp at hsome
    | some t =>
      simp only [Option.map_some']
      constructor
      · intro hcontra
        exact absurd hcontra (by simp)
      · rintro (h | h | h | h | h)
        · exfalso; subst h; simp at hlen1
        · exfalso; omega
        · exfalso; rw [hpat] at h; simp at h
        · exfalso; omega
        · exfalso; omega
  · rename_i hok
    constructor
    · intro _
      by_contra hR
      push_neg at hR
      obtain ⟨h1, h2, h3, h4, h5⟩ := hR
      apply hok
      unfold scheduleModelOK
      simp only [Bool.and_eq_true, decide_eq_true_eq]
      refine ⟨⟨⟨⟨?_, ?_⟩, ?_⟩, ?_⟩, ?_⟩
      · cases days with
        | nil => exact absurd rfl h1
        | cons a l => simp
      · omega
      · cases hb : patternHM st with
        | false => exact absurd hb h3
        | true => rfl
      · omega
      · omega
    · intro _
      rfl

/-! ## Controller state model -/

/-- Insert-or-overwrite in an association list: Python `d[k] = v` (existing
keys keep their position, new keys go to the end). -/
def assocSet {α β : Type} [DecidableEq α] :
    List (α × β) → α → β → List (α × β)
  | [], k, v => [(k, v)]
  | (k', v') :: t, k, v =>
      if k' = k then (k, v) :: t else (k', v') :: assocSet t k v

/-- Lookup in an association list: Python `d[k]`, `none` meaning KeyError. -/
def assocGet {α β : Type} [DecidableEq α] : List (α × β) → α → Option β
  | [], _ => none
  | (k', v') :: t, k => if k' = k then some v' else assocGet t k

/-- Deletion from an association list: Python `del d[k]`. -/
def assocDel {α β : Type} [DecidableEq α] : List (α × β) → α → List (α × β)
  | [], _ => []
  | (k', v') :: t, k => if k' = k then t else (k', v') :: assocDel t k

theorem assocGet_set_self {α β : Type} [DecidableEq α]
    (l : List (α × β)) (k : α) (v : β) :
    assocGet (assocSet l k v) k = some v := by
  induction l with
  | nil => simp [assocSet, assocGet]
  | cons p t ih =>
      obtain ⟨k', v'⟩ := p
      by_cases h : k' = k
      · simp [assocSet, h, assocGet]
      · simp [assocSet, h, assocGet, ih]

theorem assocGet_set_ne {α β : Type} [DecidableEq α]
    (l : List (α × β)) (k k' : α) (v : β) (h : k ≠ k') :
    assocGet (assocSet l k v) k' = assocGet l k' := by
  induction l with
  | nil => simp [assocSet, assocGet, h]
  | cons p t ih =>
      obtain ⟨k'', v''⟩ := p
      by_cases h2 : k'' = k
      · subst h2
        simp [assocSet, assocGet, h]
      · simp [assocSet, h2, assocGet, ih]

/-- Embedding of the mutable state of `SprinklerController`, together with
the GPIO output lines (`outputs`, keyed by BCM pin) and a count of
completed writes of the schedule file (`save_count`, the persistence
effect). -/
structure CtrlState where
  global_schedule_enabled : Bool
  zones : List Zone
  stop_events : List (String × Bool)
  outputs : List (Int × Bool)
  save_count : Nat
deriving DecidableEq, Repr

/-- Embedding of `save_schedule`: one more completed write of the file. -/
def save_schedule (st : CtrlState) : CtrlState :=
  { st with save_count := st.save_count + 1 }

/-- Embedding of `start_zone(zone)`: `GPIO.output(pin, HIGH)` and
`zone.active = True`. The Python object mutation is reflected into the
zones list by name (names are the identity of zones throughout the code). -/
def start_zone (st : CtrlState) (z : Zone) : CtrlState :=
  { st with
      outputs := assocSet st.outputs z.gpio_pin true,
      zones := st.zones.map fun w =>
        if w.name = z.name then { w with active := true } else w }

/-- Embedding of `stop_zone(zone)`: `GPIO.output(pin, LOW)` and
`zone.active = False`. -/
def stop_zone (st : CtrlState) (z : Zone) : CtrlState :=
  { st with
      outputs := assocSet st.outputs z.gpio_pin false,
      zones := st.zones.map fun w =>
        if w.name = z.name then { w with active := false } else w }

/-- The two ways the timed wait `self.stop_events[zone.name].wait(timeout)`
in `run_zone` can return: the full duration elapsed, or the stop event was
set (cancellation). -/
inductive ExitCause
  | elapsed
  | cancelled
deriving DecidableEq, Repr

/-- Embedding of `run_zone` as the sequence of its statements:
`start_zone`; the interruptible wait, which returns by either cause and
changes no state of its own; `stop_zone`; `stop_events[name].clear()`.
Both exit causes flow through the same straight-line cleanup. -/
def run_zone (st : CtrlState) (z : Zone) (cause : ExitCause) : CtrlState :=
  let st1 := start_zone st z
  let st2 :=
    match cause with
    | ExitCause.elapsed => st1
    | ExitCause.cancelled => st1
  let st3 := stop_zone st2 z
  { st3 with stop_events := assocSet st3.stop_events z.name false }

/-! ## C6: run exit cleanup -/

/-- C6: on exit of a zone run by either cause, the output channel is
deactivated, every zone entry of that name has its `active` flag cleared,
and the cancellation signal is cleared. -/
theorem run_zone_cleanup (st : CtrlState) (z : Zone) (cause : ExitCause) :
    assocGet (run_zone st z cause).outputs z.gpio_pin = some false ∧
    (∀ w ∈ (run_zone st z cause).zones, w.name = z.name →
      w.active = false) ∧
    assocGet (run_zone st z cause).stop_events z.name = some false := by
  unfold run_zone start_zone stop_zone
  cases cause <;>
    refine ⟨assocGet_set_self _ _ _, ?_, assocGet_set_self _ _ _⟩ <;>
  · intro w hw hname
    simp only [List.mem_map] at hw
    obtain ⟨w', hw', hmap⟩ := hw
    by_cases h : w'.name = z.name
    · simp only [h, if_true] at hmap
      rw [← hmap]
    · simp only [h, if_false] at hmap
      rw [← hmap] at hname
      exact absurd hname h

/-- Witness for C6: a concrete cancelled run of a zone ends with the pin
low, the `active` flag false, and the stop event cleared. -/
theorem run_zone_cleanup_witness :
    assocGet (run_zone
        { global_schedule_enabled := true,
          zones := [{ name := "Front Yard", gpio_pin := 17,
                      schedule := ⟨[0, 2, 4], ⟨6, 0⟩, 20, true⟩,
                      active := true }],
          stop_events := [("Front Yard", true)],
          outputs := [((17 : Int), true)],
          save_count := 0 }
        { name := "Front Yard", gpio_pin := 17,
          schedule := ⟨[0, 2, 4], ⟨6, 0⟩, 20, true⟩, active := true }
        ExitCause.cancelled).outputs 17 = some false ∧
    (∀ w ∈ (run_zone
        { global_schedule_enabled := true,
          zones := [{ name := "Front Yard", gpio_pin := 17,
                      schedule := ⟨[0, 2, 4], ⟨6, 0⟩, 20, true⟩,
                      active := true }],
          stop_events := [("Front Yard", true)],
          outputs := [((17 : Int), true)],
          save_count := 0 }
        { name := "Front Yard", gpio_pin := 17,
          schedule := ⟨[0, 2, 4], ⟨6, 0⟩, 20, true⟩, active := true }
        ExitCause.cancelled).zones, w.name = "Front Yard" →
      w.active = false) ∧
    assocGet (run_zone
        { global_schedule_enabled := true,
          zones := [{ name := "Front Yard", gpio_pin := 17,
                      schedule := ⟨[0, 2, 4], ⟨6, 0⟩, 20, true⟩,
                      active := true }],
          stop_events := [("Front Yard", true)],
          outputs := [((17 : Int), true)],
          save_count := 0 }
        { name := "Front Yard", gpio_pin := 17,
          schedule := ⟨[0, 2, 4], ⟨6, 0⟩, 20, true⟩, active := true }
        ExitCause.cancelled).stop_events "Front Yard" = some false :=
  run_zone_cleanup
    { global_schedule_enabled := true,
      zones := [{ name := "Front Yard", gpio_pin := 17,
                  schedule := ⟨[0, 2, 4], ⟨6, 0⟩, 20, true⟩,
                  active := true }],
      stop_events := [("Front Yard", true)],
      outputs := [((17 : Int), true)],
      save_count := 0 }
    { name := "Front Yard", gpio_pin := 17,
      schedule := ⟨[0, 2, 4], ⟨6, 0⟩, 20, true⟩, active := true }
    ExitCause.cancelled

/-! ## C9: scheduler tick -/

/-- Embedding of `check_and_run` at an explicit instant. The result is the
unchanged controller state paired with the list of dispatches
`(zone name, duration)` handed to `threading.Thread(...).start()`: the
tick spawns the runs and proceeds without waiting, so none of the run's
effects happen during the tick. -/
def check_and_run (st : CtrlState) (weekday : Int) (now : STime) :
    CtrlState × List (String × Int) :=
  if st.global_schedule_enabled = false then (st, [])
  else
    (st, st.zones.filterMap fun z =>
      if z.schedule.enabled &&
          (should_run_today z.schedule weekday &&
            is_start_time z.schedule now) && !z.active then
        some (z.name, z.schedule.duration_minutes)
      else none)

/-- C9: a tick leaves the state untouched (it does not wait for the
dispatched runs); if the global flag is off nothing is dispatched; and
otherwise the dispatched pairs are exactly the enabled, currently idle
zones whose schedule matches the instant, each with its configured
duration. -/
theorem check_and_run_dispatch_spec (st : CtrlState) (wd : Int)
    (now : STime) :
    (check_and_run st wd now).1 = st ∧
    (st.global_schedule_enabled = false → (check_and_run st wd now).2 = []) ∧
    (∀ name dur, (name, dur) ∈ (check_and_run st wd now).2 ↔
      st.global_schedule_enabled = true ∧ ∃ z ∈ st.zones,
        z.name = name ∧ z.schedule.duration_minutes = dur ∧
        z.schedule.enabled = true ∧ z.active = false ∧
        schedule_matches z.schedule wd now = true) := by
  refine ⟨?_, ?_, ?_⟩
  · unfold check_and_run
    split <;> rfl
  · intro hg
    unfold check_and_run
    simp [hg]
  · intro name dur
    unfold check_and_run
    by_cases hg : st.global_schedule_enabled = false
    · simp only [hg, if_true]
      simp [hg]
    · rw [Bool.not_eq_false] at hg
      simp only [hg, Bool.true_eq_false, if_false]
      rw [List.mem_filterMap]
      constructor
      · rintro ⟨z, hz, hcond⟩
        split at hcond
        · rename_i hguard
          simp only [Bool.and_eq_true, Bool.not_eq_true'] at hguard
          obtain ⟨⟨hen, hsrt, hist⟩, hact⟩ := hguard
          rw [Option.some.injEq, Prod.mk.injEq] at hcond
          exact ⟨trivial, z, hz, hcond.1, hcond.2,
            hen, hact, by unfold schedule_matches; rw [hsrt, hist]; rfl⟩
        · exact absurd hcond (by simp)
      · rintro ⟨-, z, hz, hname, hdur, hen, hact, hmatch⟩
        refine ⟨z, hz, ?_⟩
        unfold schedule_matches at hmatch
        rw [Bool.and_eq_true] at hmatch
        have hguard : (z.schedule.enabled &&
            (should_run_today z.schedule wd && is_start_time z.schedule now)
            && !z.active) = true := by
          rw [hen, hmatch.1, hmatch.2, hact]
          rfl
        rw [hguard, if_pos rfl, hname, hdur]

/-! ## C4: zone creation -/

/-- HTTP-level failure kinds used by the API handlers. -/
inductive ApiError
  | conflict
  | notFound
  | badRequest
deriving DecidableEq, Repr

/-- Embedding of `SprinklerController.add_zone` after pydantic validation:
builds the zone (`Zone.__init__` configures the pin and drives it LOW),
appends it, creates a fresh (unset) stop event, and saves. -/
def add_zone (st : CtrlState) (name : String) (gpio_pin : Int)
    (s : SprinklerSchedule) : CtrlState :=
  save_schedule
    { st with
        zones := st.zones ++
          [{ name := name, gpio_pin := gpio_pin, schedule := s,
             active := false }],
        stop_events := assocSet st.stop_events name false,
        outputs := assocSet st.outputs gpio_pin false }

/-- Embedding of the `POST /zones` handler `create_zone`: it walks the
existing zones comparing the new name and the new pin against each and
answers 409 Conflict before touching the controller; otherwise it calls
`add_zone`. The pair returns the controller state alongside the HTTP
outcome so that "no side effect" is visible. -/
def create_zone (st : CtrlState) (name : String) (gpio_pin : Int)
    (s : SprinklerSchedule) : CtrlState × Except ApiError Unit :=
  if st.zones.any fun z => z.name == name || z.gpio_pin == gpio_pin then
    (st, Except.error ApiError.conflict)
  else
    (add_zone st name gpio_pin s, Except.ok ())

/-- C4: creating a zone whose name or output channel is already used fails
with Conflict and leaves the state unchanged; otherwise the new zone is
appended (idle, pin driven low, fresh stop event) and the full state is
persisted. -/
theorem create_zone_spec (st : CtrlState) (name : String) (pin : Int)
    (s : SprinklerSchedule) :
    create_zone st name pin s =
      if ∃ z ∈ st.zones, z.name = name ∨ z.gpio_pin = pin then
        (st, Except.error ApiError.conflict)
      else
        ({ global_schedule_enabled := st.global_schedule_enabled,
           zones := st.zones ++
             [{ name := name, gpio_pin := pin, schedule := s,
                active := false }],
           stop_events := assocSet st.stop_events name false,
           outputs := assocSet st.outputs pin false,
           save_count := st.save_count + 1 }, Except.ok ()) := by
  unfold create_zone add_zone save_schedule
  by_cases h : ∃ z ∈ st.zones, z.name = name ∨ z.gpio_pin = pin
  · rw [if_pos h]
    have hany : (st.zones.any fun z =>
        z.name == name || z.gpio_pin == pin) = true := by
      rw [List.any_eq_true]
      obtain ⟨z, hz, hd⟩ := h
      exact ⟨z, hz, by rw [Bool.or_eq_true, beq_iff_eq, beq_iff_eq]; exact hd⟩
    rw [hany, if_pos rfl]
  · rw [if_neg h]
    have hany : (st.zones.any fun z =>
        z.name == name || z.gpio_pin == pin) = false := by
      rw [Bool.eq_false_iff]
      intro hc
      rw [List.any_eq_true] at hc
      obtain ⟨z, hz, hd⟩ := hc
      rw [Bool.or_eq_true, beq_iff_eq, beq_iff_eq] at hd
      exact h ⟨z, hz, hd⟩
    rw [hany]
    rfl

/-! ## Persistence: save and load -/

/-- Decimal digit character. -/
def digitChar : Nat → Char
  | 0 => '0'
  | 1 => '1'
  | 2 => '2'
  | 3 => '3'
  | 4 => '4'
  | 5 => '5'
  | 6 => '6'
  | 7 => '7'
  | 8 => '8'
  | 9 => '9'
  | _ => '*'

/-- Two-digit zero-padded decimal field (`%H` / `%M` of `strftime`). -/
def twoDigits (n : Nat) : List Char := [digitChar (n / 10), digitChar (n % 10)]

/-- Embedding of `time.strftime("%H:%M")`. -/
def strftimeHM (t : STime) : List Char :=
  twoDigits t.hour ++ ':' :: twoDigits t.minute

/-- The schedule record inside the JSON store. `enabled` is optional:
`load_schedule` reads it with `.get('enabled', True)`. -/
structure StoredSchedule where
  days : List Int
  start_time : List Char
  duration_minutes : Int
  enabled : Option Bool
deriving DecidableEq, Repr

/-- The zone record inside the JSON store. -/
structure StoredZone where
  name : String
  gpio_pin : Int
  schedule : StoredSchedule
deriving DecidableEq, Repr

/-- The whole JSON store. `global_schedule_enabled` is optional:
`load_schedule` reads it with `.get('global_schedule_enabled', True)`. -/
structure StoredData where
  global_schedule_enabled : Option Bool
  zones : List StoredZone
deriving DecidableEq, Repr

/-- What `load_schedule` can find on disk. -/
inductive Store
  | missing
  | unparsable
  | data (d : StoredData)
deriving DecidableEq, Repr

/-- Embedding of `SprinklerSchedule.to_dict` and `Zone.to_dict`: `active`
is never written; `start_time` is formatted; `enabled` is always written. -/
def zone_to_dict (z : Zone) : StoredZone :=
  { name := z.name, gpio_pin := z.gpio_pin,
    schedule := { days := z.schedule.days,
                  start_time := strftimeHM z.schedule.start_time,
                  duration_minutes := z.schedule.duration_minutes,
                  enabled := some z.schedule.enabled } }

/-- The payload written by `save_schedule`. -/
def save_payload (st : CtrlState) : StoredData :=
  { global_schedule_enabled := some st.global_schedule_enabled,
    zones := st.zones.map zone_to_dict }

/-- The per-zone loop of `load_schedule`: each stored zone is parsed
(`SprinklerSchedule.__init__` re-runs strptime), the `Zone` is built
(`active = False`, pin configured and driven LOW), appended, and a fresh
stop event created. A strptime failure raises, aborting the loop with the
partial state (`false`). -/
def load_zones : List StoredZone → CtrlState → CtrlState × Bool
  | [], st => (st, true)
  | sz :: t, st =>
      match strptimeHMList sz.schedule.start_time with
      | none => (st, false)
      | some tm =>
          load_zones t
            { st with
                zones := st.zones ++
                  [{ name := sz.name, gpio_pin := sz.gpio_pin,
                     schedule :=
                       { days := sz.schedule.days, start_time := tm,
                         duration_minutes := sz.schedule.duration_minutes,
                         enabled := sz.schedule.enabled.getD true },
                     active := false }],
                stop_events := assocSet st.stop_events sz.name false,
                outputs := assocSet st.outputs sz.gpio_pin false }

/-- The built-in default "Front Yard" zone. -/
def default_zone1 : Zone :=
  { name := "Front Yard", gpio_pin := 17,
    schedule := { days := [0, 2, 4], start_time := ⟨6, 0⟩,
                  duration_minutes := 20, enabled := true },
    active := false }

/-- The built-in default "Back Yard" zone. -/
def default_zone2 : Zone :=
  { name := "Back Yard", gpio_pin := 27,
    schedule := { days := [1, 3, 5], start_time := ⟨6, 30⟩,
                  duration_minutes := 15, enabled := true },
    active := false }

/-- Embedding of `create_default_schedule`: replaces `zones` with the two
built-in defaults, registers their stop events (existing entries for other
names are kept, as in the Python dict), and saves at once. -/
def create_default_schedule (st : CtrlState) : CtrlState :=
  save_schedule
    { st with
        zones := [default_zone1, default_zone2],
        stop_events :=
          assocSet (assocSet st.stop_events "Front Yard" false)
            "Back Yard" false,
        outputs := assocSet (assocSet st.outputs 17 false) 27 false }

/-- Embedding of `load_schedule`: a missing file or a JSON parse error
falls back to the default schedule; otherwise the global flag is read
(defaulting to true), `zones` is reset, and the per-zone loop runs — if it
raises, the default schedule is built on top of the partial state. -/
def load_schedule (store : Store) (st : CtrlState) : CtrlState :=
  match store with
  | Store.missing => create_default_schedule st
  | Store.unparsable => create_default_schedule st
  | Store.data d =>
      let st1 := { st with
        global_schedule_enabled := d.global_schedule_enabled.getD true,
        zones := [] }
      match load_zones d.zones st1 with
      | (st2, true) => st2
      | (st2, false) => create_default_schedule st2

/-- The state built by `SprinklerController.__init__` before it calls
`load_schedule`. -/
def init_state : CtrlState :=
  { global_schedule_enabled := true, zones := [], stop_events := [],
    outputs := [], save_count := 0 }

/-- Embedding of `SprinklerController.__init__`: fresh state, then load. -/
def controller_init (store : Store) : CtrlState :=
  load_schedule store init_state

set_option maxHeartbeats 1000000 in
theorem roundtrip_fin : ∀ h : Fin 24, ∀ m : Fin 60,
    strptimeHMList (strftimeHM ⟨h.1, m.1⟩) = some ⟨h.1, m.1⟩ := by decide

/-- Formatting a valid time with `%H:%M` and parsing it back is the
identity. -/
theorem strptime_strftime_roundtrip (t : STime) (h1 : t.hour < 24)
    (h2 : t.minute < 60) : strptimeHMList (strftimeHM t) = some t :=
  roundtrip_fin ⟨t.hour, h1⟩ ⟨t.minute, h2⟩

/-- When every stored zone's time string parses, the load loop succeeds,
touches neither the global flag nor the save count, and appends exactly
the decoded zones, each idle and with `enabled` defaulted to true when
absent. -/
theorem load_zones_ok (szs : List StoredZone) (st : CtrlState)
    (hparse : ∀ sz ∈ szs,
      (strptimeHMList sz.schedule.start_time).isSome = true) :
    (load_zones szs st).2 = true ∧
    (load_zones szs st).1.global_schedule_enabled =
      st.global_schedule_enabled ∧
    (load_zones szs st).1.save_count = st.save_count ∧
    (load_zones szs st).1.zones = st.zones ++ szs.map (fun sz =>
      { name := sz.name, gpio_pin := sz.gpio_pin,
        schedule := { days := sz.schedule.days,
                      start_time :=
                        (strptimeHMList sz.schedule.start_time).getD ⟨0, 0⟩,
                      duration_minutes := sz.schedule.duration_minutes,
                      enabled := sz.schedule.enabled.getD true },
        active := false }) := by
  induction szs generalizing st with
  | nil => simp [load_zones]
  | cons sz t ih =>
    have hp := hparse sz (List.mem_cons_self _ _)
    cases ho : strptimeHMList sz.schedule.start_time with
    | none => rw [ho] at hp; simp at hp
    | some tm =>
      have iht := ih
        { st with
            zones := st.zones ++
              [{ name := sz.name, gpio_pin := sz.gpio_pin,
                 schedule :=
                   { days := sz.schedule.days, start_time := tm,
                     duration_minutes := sz.schedule.duration_minutes,
                     enabled := sz.schedule.enabled.getD true },
                 active := false }],
            stop_events := assocSet st.stop_events sz.name false,
            outputs := assocSet st.outputs sz.gpio_pin false }
        (fun x hx => hparse x (List.mem_cons_of_mem _ hx))
      simp only [load_zones, ho]
      refine ⟨iht.1, ?_, ?_, ?_⟩
      · rw [iht.2.1]
      · rw [iht.2.2.1]
      · rw [iht.2.2.2, List.map_cons, ho]
        simp [List.append_assoc]

/-! ## C7: save/load roundtrip -/

/-- C7: saving the controller state and loading the payload into a fresh
controller reproduces the global flag and the zone list field-for-field,
except that every `active` flag is false after loading. -/
theorem save_load_roundtrip (st : CtrlState)
    (hv : ∀ z ∈ st.zones, z.schedule.start_time.hour < 24 ∧
      z.schedule.start_time.minute < 60) :
    (load_schedule (Store.data (save_payload st))
        init_state).global_schedule_enabled =
      st.global_schedule_enabled ∧
    (load_schedule (Store.data (save_payload st)) init_state).zones =
      st.zones.map fun z => { z with active := false } := by
  have hparse : ∀ sz ∈ (save_payload st).zones,
      (strptimeHMList sz.schedule.start_time).isSome = true := by
    intro sz hsz
    simp only [save_payload, List.mem_map] at hsz
    obtain ⟨z, hz, rfl⟩ := hsz
    rw [zone_to_dict]
    rw [strptime_strftime_roundtrip z.schedule.start_time (hv z hz).1
      (hv z hz).2]
    rfl
  have hok := load_zones_ok (save_payload st).zones
    { init_state with
        global_schedule_enabled :=
          ((save_payload st).global_schedule_enabled).getD true,
        zones := [] } hparse
  obtain ⟨hsucc, hg, hsc, hz⟩ := hok
  simp only [load_schedule]
  cases hres : load_zones (save_payload st).zones
      { init_state with
          global_schedule_enabled :=
            ((save_payload st).global_schedule_enabled).getD true,
          zones := [] } with
  | mk st2 b =>
    rw [hres] at hsucc hg hsc hz
    simp only at hsucc hg hsc hz
    subst hsucc
    constructor
    · rw [hg]
      simp [save_payload]
    · rw [hz]
      simp only [List.nil_append, save_payload, List.map_map]
      refine List.map_congr_left ?_
      intro z hz
      simp only [Function.comp_apply, zone_to_dict]
      rw [strptime_strftime_roundtrip z.schedule.start_time (hv z hz).1
        (hv z hz).2]
      rfl

/-- Witness for C7 at a one-zone state. -/
theorem save_load_roundtrip_witness :
    (∀ z ∈ [{ name := "Patio", gpio_pin := 5,
              schedule := ⟨[6], ⟨21, 45⟩, 12, false⟩, active := true }],
      (Zone.schedule z).start_time.hour < 24 ∧
        (Zone.schedule z).start_time.minute < 60) ∧
    (load_schedule (Store.data (save_payload
        { global_schedule_enabled := false,
          zones := [{ name := "Patio", gpio_pin := 5,
                      schedule := ⟨[6], ⟨21, 45⟩, 12, false⟩,
                      active := true }],
          stop_events := [("Patio", true)], outputs := [((5 : Int), true)],
          save_count := 3 }))
        init_state).global_schedule_enabled = false ∧
    (load_schedule (Store.data (save_payload
        { global_schedule_enabled := false,
          zones := [{ name := "Patio", gpio_pin := 5,
                      schedule := ⟨[6], ⟨21, 45⟩, 12, false⟩,
                      active := true }],
          stop_events := [("Patio", true)], outputs := [((5 : Int), true)],
          save_count := 3 })) init_state).zones =
      [{ name := "Patio", gpio_pin := 5,
         schedule := ⟨[6], ⟨21, 45⟩, 12, false⟩, active := false }] :=
  ⟨by decide,
    save_load_roundtrip
      { global_schedule_enabled := false,
        zones := [{ name := "Patio", gpio_pin := 5,
                    schedule := ⟨[6], ⟨21, 45⟩, 12, false⟩,
                    active := true }],
        stop_events := [("Patio", true)], outputs := [((5 : Int), true)],
        save_count := 3 } (by decide)⟩

/-! ## C8: default on missing or unparsable store -/

/-- C8: a missing or unparsable store yields exactly the built-in default:
zone "Front Yard" on pin 17 with days [0,2,4], 06:00, 20 minutes and
zone "Back Yard" on pin 27 with days [1,3,5], 06:30, 15 minutes, both
enabled, and the state is persisted immediately (one save). -/
theorem load_default_spec :
    controller_init Store.missing =
      { global_schedule_enabled := true,
        zones := [{ name := "Front Yard", gpio_pin := 17,
                    schedule := { days := [0, 2, 4], start_time := ⟨6, 0⟩,
                                  duration_minutes := 20, enabled := true },
                    active := false },
                  { name := "Back Yard", gpio_pin := 27,
                    schedule := { days := [1, 3, 5], start_time := ⟨6, 30⟩,
                                  duration_minutes := 15, enabled := true },
                    active := false }],
        stop_events := [("Front Yard", false), ("Back Yard", false)],
        outputs := [((17 : Int), false), (27, false)],
        save_count := 1 } ∧
    controller_init Store.unparsable =
      { global_schedule_enabled := true,
        zones := [{ name := "Front Yard", gpio_pin := 17,
                    schedule := { days := [0, 2, 4], start_time := ⟨6, 0⟩,
                                  duration_minutes := 20, enabled := true },
                    active := false },
                  { name := "Back Yard", gpio_pin := 27,
                    schedule := { days := [1, 3, 5], start_time := ⟨6, 30⟩,
                                  duration_minutes := 15, enabled := true },
                    active := false }],
        stop_events := [("Front Yard", false), ("Back Yard", false)],
        outputs := [((17 : Int), false), (27, false)],
        save_count := 1 } := by
  constructor <;> rfl

/-! ## C10: missing enabled fields default to true -/

/-- C10: a store that omits the top-level `global_schedule_enabled` and the
per-zone `enabled` fields loads successfully (no default fallback, no
save) with the global flag and every loaded schedule treated as enabled. -/
theorem load_missing_enabled_defaults_true (d : StoredData)
    (hg : d.global_schedule_enabled = none)
    (hen : ∀ sz ∈ d.zones, sz.schedule.enabled = none)
    (hparse : ∀ sz ∈ d.zones,
      (strptimeHMList sz.schedule.start_time).isSome = true) :
    (controller_init (Store.data d)).global_schedule_enabled = true ∧
    (controller_init (Store.data d)).save_count = 0 ∧
    (controller_init (Store.data d)).zones.map Zone.name =
      d.zones.map StoredZone.name ∧
    ∀ z ∈ (controller_init (Store.data d)).zones,
      z.schedule.enabled = true := by
  have hok := load_zones_ok d.zones
    { init_state with
        global_schedule_enabled := d.global_schedule_enabled.getD true,
        zones := [] } hparse
  obtain ⟨hsucc, hgl, hsc, hz⟩ := hok
  unfold controller_init
  simp only [load_schedule]
  cases hres : load_zones d.zones
      { init_state with
          global_schedule_enabled := d.global_schedule_enabled.getD true,
          zones := [] } with
  | mk st2 b =>
    rw [hres] at hsucc hgl hsc hz
    simp only at hsucc hgl hsc hz
    subst hsucc
    refine ⟨?_, ?_, ?_, ?_⟩
    · rw [hgl, hg]
      rfl
    · rw [hsc]
      rfl
    · rw [hz]
      simp [List.map_map]
    · intro z hzz
      rw [hz] at hzz
      simp only [List.nil_append, List.mem_map] at hzz
      obtain ⟨sz, hsz, rfl⟩ := hzz
      simp [hen sz hsz]

/-- Witness for C10: a store holding one zone, omitting both optional
fields. -/
theorem load_missing_enabled_defaults_true_witness :
    (StoredData.global_schedule_enabled
        ⟨none, [⟨"Lawn", 4, ⟨[0], ('0' :: '8' :: ':' :: '1' :: '5' :: []),
          10, none⟩⟩]⟩ = none) ∧
    ((controller_init (Store.data
        ⟨none, [⟨"Lawn", 4, ⟨[0], ('0' :: '8' :: ':' :: '1' :: '5' :: []),
          10, none⟩⟩]⟩)).global_schedule_enabled = true ∧
      (controller_init (Store.data
        ⟨none, [⟨"Lawn", 4, ⟨[0], ('0' :: '8' :: ':' :: '1' :: '5' :: []),
          10, none⟩⟩]⟩)).save_count = 0 ∧
      (controller_init (Store.data
        ⟨none, [⟨"Lawn", 4, ⟨[0], ('0' :: '8' :: ':' :: '1' :: '5' :: []),
          10, none⟩⟩]⟩)).zones.map Zone.name =
        [⟨"Lawn", 4, ⟨[0], ('0' :: '8' :: ':' :: '1' :: '5' :: []),
          10, none⟩⟩].map StoredZone.name ∧
      ∀ z ∈ (controller_init (Store.data
        ⟨none, [⟨"Lawn", 4, ⟨[0], ('0' :: '8' :: ':' :: '1' :: '5' :: []),
          10, none⟩⟩]⟩)).zones, z.schedule.enabled = true) :=
  ⟨rfl,
    load_missing_enabled_defaults_true
      ⟨none, [⟨"Lawn", 4, ⟨[0], ('0' :: '8' :: ':' :: '1' :: '5' :: []),
        10, none⟩⟩]⟩ rfl (by decide) (by decide)⟩

/-! ## C1: concurrent trigger attempts on one zone -/

/-- Where a trigger attempt stands. An attempt — a scheduler dispatch in
`check_and_run` or a manual `POST /zones/{name}/run` — first READS the
zone's `active` flag (`if not zone.active`, line 328; `if
target_zone.active`, api line 223) and only later, inside the spawned
thread or background task, does `run_zone` → `start_zone` WRITE
`zone.active = True` (line 292). No lock ties the read to the write. -/
inductive AttemptPhase
  | ready
  | passed
  | running
  | conflicted
deriving DecidableEq, Repr

/-- Interleaving state of two trigger attempts `a` and `b` against one
zone: the zone's `active` flag and each attempt's phase. -/
structure RaceState where
  active : Bool
  a : AttemptPhase
  b : AttemptPhase
deriving DecidableEq, Repr

/-- The atomic steps available: each attempt's check of `active` and its
later set of `active` inside the dispatched run. -/
inductive RaceStep
  | acheck
  | aset
  | bcheck
  | bset
deriving DecidableEq, Repr

/-- One atomic step of the race; `none` when the step is not enabled in
the current phase. A check observes `active`: if true, the attempt ends in
`conflicted` (zone skipped / HTTP 409) with no side effect; if false, the
run is dispatched (`passed`). A set is `start_zone` running inside the
dispatched thread: it writes `active := true` unconditionally, because
`run_zone` never re-checks the flag. -/
def raceStep (s : RaceState) : RaceStep → Option RaceState
  | RaceStep.acheck =>
      if s.a = AttemptPhase.ready then
        some { s with a := if s.active then AttemptPhase.conflicted
                           else AttemptPhase.passed }
      else none
  | RaceStep.aset =>
      if s.a = AttemptPhase.passed then
        some { s with active := true, a := AttemptPhase.running }
      else none
  | RaceStep.bcheck =>
      if s.b = AttemptPhase.ready then
        some { s with b := if s.active then AttemptPhase.conflicted
                           else AttemptPhase.passed }
      else none
  | RaceStep.bset =>
      if s.b = AttemptPhase.passed then
        some { s with active := true, b := AttemptPhase.running }
      else none

/-- Run a sequence of atomic steps (an interleaving). -/
def raceRun : RaceState → List RaceStep → Option RaceState
  | s, [] => some s
  | s, step :: t =>
      match raceStep s step with
      | some s2 => raceRun s2 t
      | none => none

/-- Both attempts start before their checks, zone idle. -/
def race_init : RaceState :=
  { active := false, a := AttemptPhase.ready, b := AttemptPhase.ready }

/-- C1 is violated by the code: because the check of `active` and the
write of `active` are separate unsynchronized steps, the interleaving
check-A, check-B, set-A, set-B drives BOTH concurrent attempts to
`Running` on the same zone — neither receives Conflict — whereas the claim
says exactly one may succeed. The second conjunct shows the sequential
interleaving does behave as claimed, isolating the race as the cause. -/
theorem double_start_interleaving :
    raceRun race_init
        [RaceStep.acheck, RaceStep.bcheck, RaceStep.aset, RaceStep.bset] =
      some { active := true, a := AttemptPhase.running,
             b := AttemptPhase.running } ∧
    raceRun race_init
        [RaceStep.acheck, RaceStep.aset, RaceStep.bcheck] =
      some { active := true, a := AttemptPhase.running,
             b := AttemptPhase.conflicted } := by
  constructor
  · rfl
  · rfl

/-! ## C5: zone removal racing the runner thread -/

/-- Embedding of `SprinklerController.remove_zone`: find the first zone of
that name; if it is active, set its stop event and call `stop_zone`
directly (forcing the flag and pin off itself); delete the zone entry and
the stop-event entry; save. Returns whether a zone was removed. -/
def remove_zone (st : CtrlState) (name : String) : CtrlState × Bool :=
  match st.zones.find? (fun z => z.name == name) with
  | none => (st, false)
  | some z =>
      let st1 :=
        if z.active then
          stop_zone { st with stop_events := assocSet st.stop_events name true }
            z
        else st
      (save_schedule
        { st1 with
            zones := st1.zones.eraseP (fun w => w.name == name),
            stop_events := assocDel st1.stop_events name }, true)

/-- Where the daemon thread executing `run_zone` for a zone stands. -/
inductive RunnerPhase
  | waitingOnEvent
  | finished
  | keyError
deriving DecidableEq, Repr

/-- A controller state together with one in-flight runner thread: the
`Zone` object the thread holds a reference to, and its phase. -/
structure RunModel where
  ctrl : CtrlState
  runner_zone : Zone
  runner : RunnerPhase
deriving DecidableEq, Repr

/-- The runner thread resuming after its wait returns (the stop event was
set, or the timeout elapsed): it runs `stop_zone(zone)` on the object it
still holds, then `self.stop_events[zone.name].clear()` — a fresh dict
lookup that raises KeyError when the entry has been deleted. -/
def runner_resume (m : RunModel) : RunModel :=
  match m.runner with
  | RunnerPhase.waitingOnEvent =>
      let c1 := stop_zone m.ctrl m.runner_zone
      match assocGet c1.stop_events m.runner_zone.name with
      | some _ =>
          let c2 : CtrlState := { c1 with
            stop_events := assocSet c1.stop_events m.runner_zone.name false }
          { ctrl := c2, runner_zone := m.runner_zone,
            runner := RunnerPhase.finished }
      | none =>
          { ctrl := c1, runner_zone := m.runner_zone,
            runner := RunnerPhase.keyError }
  | _ => m

/-- `remove_zone` as it executes while a runner thread exists: the removal
runs its statements to completion on the controller state and never
touches, joins, or waits for the runner thread. -/
def remove_zone_while_running (m : RunModel) (name : String) :
    RunModel × Bool :=
  (({ ctrl := (remove_zone m.ctrl name).1, runner_zone := m.runner_zone,
      runner := m.runner } : RunModel), (remove_zone m.ctrl name).2)

/-- A concrete state: one zone "Front Yard" running (active, pin 17 high),
its runner blocked on the stop event. -/
def c5_init : RunModel :=
  { ctrl :=
      { global_schedule_enabled := true,
        zones := [{ name := "Front Yard", gpio_pin := 17,
                    schedule := { days := [0, 2, 4], start_time := ⟨6, 0⟩,
                                  duration_minutes := 20, enabled := true },
                    active := true }],
        stop_events := [("Front Yard", false)],
        outputs := [((17 : Int), true)],
        save_count := 0 },
    runner_zone := { name := "Front Yard", gpio_pin := 17,
                     schedule := { days := [0, 2, 4], start_time := ⟨6, 0⟩,
                                   duration_minutes := 20, enabled := true },
                     active := true },
    runner := RunnerPhase.waitingOnEvent }

/-- C5 counterexample: `remove_zone` on the active zone returns while the
runner thread has not settled (it is still at its wait, not `finished`),
so the code does not wait for the run to settle to Idle before removing
the entry; worse, when the runner does resume, its cleanup raises
KeyError because the stop-event entry is already deleted. -/
theorem remove_zone_counterexample :
    (remove_zone_while_running c5_init "Front Yard").1.runner ≠
      RunnerPhase.finished ∧
    (runner_resume
        (remove_zone_while_running c5_init "Front Yard").1).runner =
      RunnerPhase.keyError := by
  constructor
  · decide
  · decide

theorem assocGet_eq_none_of_not_mem {α β : Type} [DecidableEq α]
    (l : List (α × β)) (k : α) (h : k ∉ l.map Prod.fst) :
    assocGet l k = none := by
  induction l with
  | nil => rfl
  | cons p t ih =>
      obtain ⟨k', v'⟩ := p
      simp only [List.map_cons, List.mem_cons] at h
      push_neg at h
      simp only [assocGet]
      rw [if_neg (fun hc : k' = k => h.1 hc.symm)]
      exact ih h.2

theorem assocGet_del_set_self {α β : Type} [DecidableEq α]
    (l : List (α × β)) (k : α) (v : β)
    (hnd : (l.map Prod.fst).Nodup) :
    assocGet (assocDel (assocSet l k v) k) k = none := by
  induction l with
  | nil => simp [assocSet, assocDel, assocGet]
  | cons p t ih =>
      obtain ⟨k', v'⟩ := p
      simp only [List.map_cons, List.nodup_cons] at hnd
      by_cases h : k' = k
      · subst h
        simp only [assocSet, if_pos rfl, assocDel, if_pos rfl]
        exact assocGet_eq_none_of_not_mem t k' hnd.1
      · simp only [assocSet, if_neg h, assocDel, if_neg h, assocGet,
          if_neg h]
        exact ih hnd.2

/-- `stop_zone`'s in-place flag update preserves the list of zone names. -/
theorem zones_map_stop_names (l : List Zone) (nm : String) :
    ((l.map fun w => if w.name = nm then { w with active := false }
        else w).map Zone.name) = l.map Zone.name := by
  rw [List.map_map]
  refine List.map_congr_left ?_
  intro w _
  by_cases h : w.name = nm
  · simp [h]
  · simp [h]

/-- Erasing the first zone of a given name from a list whose names are
distinct leaves no zone of that name. -/
theorem eraseP_name_ne (l : List Zone) (nm : String)
    (hnd : (l.map Zone.name).Nodup) :
    ∀ w ∈ l.eraseP (fun z => z.name == nm), w.name ≠ nm := by
  induction l with
  | nil => simp [List.eraseP]
  | cons a t ih =>
      simp only [List.map_cons, List.nodup_cons] at hnd
      intro w hw
      by_cases ha : a.name = nm
      · have he : List.eraseP (fun z => z.name == nm) (a :: t) = t := by
          simp [List.eraseP_cons, ha]
        rw [he] at hw
        intro hwn
        have hmem : w.name ∈ List.map Zone.name t :=
          List.mem_map_of_mem _ hw
        rw [hwn, ← ha] at hmem
        exact hnd.1 hmem
      · have he : List.eraseP (fun z => z.name == nm) (a :: t) =
            a :: List.eraseP (fun z => z.name == nm) t := by
          simp [List.eraseP_cons, ha]
        rw [he] at hw
        rcases List.mem_cons.mp hw with rfl | hw2
        · exact ha
        · exact ih hnd.2 w hw2

/-- C5 amended: `remove_zone` on an active zone sets the zone's stop event
and then immediately forces the zone off itself (`stop_zone`: pin low,
`active` cleared) instead of waiting for the runner to settle; it removes
the zone entry and the stop-event entry and persists, so a subsequent
listing no longer contains the name — but the call returns with the
runner thread still unsettled, and when that thread resumes, its cleanup
of the now-deleted stop event raises KeyError. -/
theorem remove_zone_forced_stop (m : RunModel) (name : String) (z : Zone)
    (hfind : m.ctrl.zones.find? (fun w => w.name == name) = some z)
    (hactive : z.active = true)
    (hnames : (m.ctrl.zones.map Zone.name).Nodup)
    (hkeys : (m.ctrl.stop_events.map Prod.fst).Nodup)
    (hrz : m.runner_zone.name = name)
    (hwait : m.runner = RunnerPhase.waitingOnEvent) :
    (remove_zone_while_running m name).2 = true ∧
    (∀ w ∈ (remove_zone_while_running m name).1.ctrl.zones,
      w.name ≠ name) ∧
    assocGet (remove_zone_while_running m name).1.ctrl.stop_events name =
      none ∧
    (remove_zone_while_running m name).1.ctrl.save_count =
      m.ctrl.save_count + 1 ∧
    assocGet (remove_zone_while_running m name).1.ctrl.outputs z.gpio_pin =
      some false ∧
    (remove_zone_while_running m name).1.runner =
      RunnerPhase.waitingOnEvent ∧
    (runner_resume (remove_zone_while_running m name).1).runner =
      RunnerPhase.keyError := by
  have hE : remove_zone m.ctrl name =
      ({ global_schedule_enabled := m.ctrl.global_schedule_enabled,
         zones := (m.ctrl.zones.map fun w =>
             if w.name = z.name then { w with active := false }
             else w).eraseP (fun w => w.name == name),
         stop_events :=
           assocDel (assocSet m.ctrl.stop_events name true) name,
         outputs := assocSet m.ctrl.outputs z.gpio_pin false,
         save_count := m.ctrl.save_count + 1 }, true) := by
    unfold remove_zone
    rw [hfind]
    simp only [hactive, if_true, stop_zone, save_schedule]
  have hzname : z.name = name := by
    have hp := List.find?_some hfind
    simpa using hp
  have hevents : assocGet
      (assocDel (assocSet m.ctrl.stop_events name true) name) name =
      none := assocGet_del_set_self m.ctrl.stop_events name true hkeys
  refine ⟨?_, ?_, ?_, ?_, ?_, ?_, ?_⟩
  · unfold remove_zone_while_running
    rw [hE]
  · unfold remove_zone_while_running
    rw [hE]
    intro w hw
    refine eraseP_name_ne _ name ?_ w hw
    rw [hzname, zones_map_stop_names]
    exact hnames
  · unfold remove_zone_while_running
    rw [hE]
    exact hevents
  · unfold remove_zone_while_running
    rw [hE]
  · unfold remove_zone_while_running
    rw [hE]
    exact assocGet_set_self _ _ _
  · unfold remove_zone_while_running
    rw [hE]
    exact hwait
  · unfold remove_zone_while_running
    rw [hE]
    simp only [runner_resume, hwait]
    have hs : assocGet (stop_zone
        { global_schedule_enabled := m.ctrl.global_schedule_enabled,
          zones := (m.ctrl.zones.map fun w =>
              if w.name = z.name then { w with active := false }
              else w).eraseP (fun w => w.name == name),
          stop_events :=
            assocDel (assocSet m.ctrl.stop_events name true) name,
          outputs := assocSet m.ctrl.outputs z.gpio_pin false,
          save_count := m.ctrl.save_count + 1 }
        m.runner_zone).stop_events m.runner_zone.name = none := by
      rw [stop_zone, hrz]
      exact hevents
    rw [hs]

/-- Witness for the amended C5 at the concrete racing state `c5_init`. -/
theorem remove_zone_forced_stop_witness :
    (remove_zone_while_running c5_init "Front Yard").2 = true ∧
    (∀ w ∈ (remove_zone_while_running c5_init "Front Yard").1.ctrl.zones,
      w.name ≠ "Front Yard") ∧
    assocGet (remove_zone_while_running c5_init
        "Front Yard").1.ctrl.stop_events "Front Yard" = none ∧
    (remove_zone_while_running c5_init "Front Yard").1.ctrl.save_count =
      c5_init.ctrl.save_count + 1 ∧
    assocGet (remove_zone_while_running c5_init
        "Front Yard").1.ctrl.outputs 17 = some false ∧
    (remove_zone_while_running c5_init "Front Yard").1.runner =
      RunnerPhase.waitingOnEvent ∧
    (runner_resume (remove_zone_while_running c5_init
        "Front Yard").1).runner = RunnerPhase.keyError :=
  remove_zone_forced_stop c5_init "Front Yard"
    { name := "Front Yard", gpio_pin := 17,
      schedule := { days := [0, 2, 4], start_time := ⟨6, 0⟩,
                    duration_minutes := 20, enabled := true },
      active := true }
    (by decide) rfl (by decide) (by decide) rfl rfl
